import Mathlib

/-!
Verification development for the interview-transcript relay
(`app.py`, `streamlit_app.py`).

The embedding models:
* Python `json.loads` on the fragment the analyzer can meet: objects,
  arrays, strings (with escapes), integers, the non-integer number
  lexemes (kept uninterpreted as their lexeme, since no claim inspects a
  float value), `true`/`false`/`null` and the Python extensions
  `NaN`/`Infinity`/`-Infinity`.  Decoded objects are association lists
  in member order (Python dicts keep insertion order; key lookup is
  last-occurrence-wins, matching dict construction).
* Python `str.find`, `str.rfind` and slice semantics, including the
  negative-index behaviour of `content[-1:end]` that arises when the
  reply holds no `'{'`.
* `InterviewAnalyzer.analyze_transcript`, the Flask routes
  `/analyze-call/<call_id>` and `/get-transcript/<call_id>`, and the
  dashboard helper `get_latest_completed_call`.  Remote services are
  modelled by their outcome: a reply text or a raised exception message.
-/

namespace IOH

/-- A decoded JSON value, as produced by `json.loads`.  `num` holds an
integer literal's value; `numF` keeps the lexeme of a number with a
fraction or exponent part (or `NaN`/`Infinity`), whose Python value is a
float that no claim inspects. -/
inductive Json where
  | null : Json
  | bool (b : Bool) : Json
  | num (n : Int) : Json
  | numF (lexeme : String) : Json
  | str (s : String) : Json
  | arr (elems : List Json) : Json
  | obj (members : List (String × Json)) : Json
deriving Repr

/-- Whether the value is a JSON object (a Python `dict`). -/
def Json.isObj : Json → Bool
  | .obj _ => true
  | _ => false

/-- Whether the object has a member named `k` (`k in d` on the dict). -/
def Json.hasKey : Json → String → Bool
  | .obj kvs, k => kvs.any (fun kv => kv.1 == k)
  | _, _ => false

/-- Lookup `d[k]` on the dict: the last member named `k`, matching the
last-occurrence-wins construction of a Python dict from decoded
members. -/
def Json.getKey : Json → String → Option Json
  | .obj kvs, k => (kvs.reverse.find? (fun kv => kv.1 == k)).map (·.2)
  | _, _ => none

/-- The whitespace characters `json.loads` skips between tokens. -/
def isJsonWs (c : Char) : Bool :=
  c = ' ' || c = '\t' || c = '\n' || c = '\r'

/-- Drop leading JSON whitespace. -/
def skipWs : List Char → List Char
  | [] => []
  | c :: cs => if isJsonWs c then skipWs cs else c :: cs

/-- Value of a hex digit, if `c` is one. -/
def hexVal? (c : Char) : Option Nat :=
  if '0' ≤ c ∧ c ≤ '9' then some (c.toNat - '0'.toNat)
  else if 'a' ≤ c ∧ c ≤ 'f' then some (c.toNat - 'a'.toNat + 10)
  else if 'A' ≤ c ∧ c ≤ 'F' then some (c.toNat - 'A'.toNat + 10)
  else none

/-- Scan of a JSON string literal body after the opening quote, into
code units: escapes and the strict-mode rejection of raw control
characters follow `json.decoder.py_scanstring`.  Returns the units and
the input after the closing quote. -/
def scanStringUnits (acc : List Nat) : List Char → Option (List Nat × List Char)
  | [] => none
  | '"' :: rest => some (acc.reverse, rest)
  | '\\' :: 'u' :: h1 :: h2 :: h3 :: h4 :: rest =>
    (match hexVal? h1, hexVal? h2, hexVal? h3, hexVal? h4 with
     | some a, some b, some c, some d =>
       scanStringUnits ((((a * 16 + b) * 16 + c) * 16 + d) :: acc) rest
     | _, _, _, _ => none)
  | '\\' :: '"' :: r => scanStringUnits (0x22 :: acc) r
  | '\\' :: '\\' :: r => scanStringUnits (0x5C :: acc) r
  | '\\' :: '/' :: r => scanStringUnits (0x2F :: acc) r
  | '\\' :: 'b' :: r => scanStringUnits (0x08 :: acc) r
  | '\\' :: 'f' :: r => scanStringUnits (0x0C :: acc) r
  | '\\' :: 'n' :: r => scanStringUnits (0x0A :: acc) r
  | '\\' :: 'r' :: r => scanStringUnits (0x0D :: acc) r
  | '\\' :: 't' :: r => scanStringUnits (0x09 :: acc) r
  | '\\' :: _ => none
  | c :: rest =>
    if c.toNat < 0x20 then none else scanStringUnits (c.toNat :: acc) rest

/-- Combine an adjacent high/low surrogate pair of `\uXXXX` code units
into one character, as `py_scanstring` does; a lone surrogate, which
Lean's `Char` cannot hold, falls back to `Char.ofNat`'s default
(unreachable in every claim). -/
def combineUnits : List Nat → List Char
  | [] => []
  | u :: us =>
    match us with
    | v :: rest =>
      if (0xD800 ≤ u ∧ u ≤ 0xDBFF) ∧ (0xDC00 ≤ v ∧ v ≤ 0xDFFF) then
        Char.ofNat (0x10000 + (u - 0xD800) * 0x400 + (v - 0xDC00)) :: combineUnits rest
      else
        Char.ofNat u :: combineUnits (v :: rest)
    | [] => [Char.ofNat u]

/-- Body of a JSON string literal, after the opening quote: the decoded
characters and the input after the closing quote. -/
def parseStringBody (cs : List Char) : Option (List Char × List Char) :=
  (scanStringUnits [] cs).map (fun p => (combineUnits p.1, p.2))

/-- Numeric value of a digit string. -/
def digitsToNat (ds : List Char) : Nat :=
  ds.foldl (fun a c => a * 10 + (c.toNat - '0'.toNat)) 0

/-- The integer part of the JSON number regex `(-?(?:0|[1-9]\d*))`,
without the sign: its digits and the rest, or `none` if no match. -/
def scanInt : List Char → Option (List Char × List Char)
  | [] => none
  | '0' :: rest => some (['0'], rest)
  | c :: rest =>
    if c.isDigit then
      let p := (c :: rest).span Char.isDigit
      some (p.1, p.2)
    else none

/-- The optional fraction group `(\.\d+)?`: its lexeme (possibly empty,
consuming nothing) and the rest. -/
def scanFrac (cs : List Char) : List Char × List Char :=
  match cs with
  | '.' :: rest =>
    let p := rest.span Char.isDigit
    if p.1 = [] then ([], cs) else ('.' :: p.1, p.2)
  | _ => ([], cs)

/-- The optional exponent group `([eE][-+]?\d+)?`: its lexeme (possibly
empty, consuming nothing) and the rest. -/
def scanExp (cs : List Char) : List Char × List Char :=
  match cs with
  | c :: rest =>
    if c = 'e' ∨ c = 'E' then
      match rest with
      | s :: rest2 =>
        if s = '+' ∨ s = '-' then
          let p := rest2.span Char.isDigit
          if p.1 = [] then ([], cs) else (c :: s :: p.1, p.2)
        else
          let p := rest.span Char.isDigit
          if p.1 = [] then ([], cs) else (c :: p.1, p.2)
      | [] => ([], cs)
    else ([], cs)
  | [] => ([], cs)

/-- A number token at the head of the input: an integer when no
fraction/exponent group matches, otherwise the full lexeme; also the
Python-extension constants `NaN`, `Infinity`, `-Infinity`. -/
def parseNumber (cs : List Char) : Option (Json × List Char) :=
  match cs with
  | '-' :: 'I' :: 'n' :: 'f' :: 'i' :: 'n' :: 'i' :: 't' :: 'y' :: rest =>
    some (.numF "-Infinity", rest)
  | _ =>
    let signed := match cs with
      | '-' :: r => (true, r)
      | _ => (false, cs)
    match scanInt signed.2 with
    | none => none
    | some (intDigits, rest1) =>
      let f := scanFrac rest1
      let e := scanExp f.2
      if f.1 = [] ∧ e.1 = [] then
        some (.num (if signed.1 then -(digitsToNat intDigits : Int)
                    else (digitsToNat intDigits : Int)), rest1)
      else
        some (.numF (String.mk ((if signed.1 then ['-'] else []) ++
                                 intDigits ++ f.1 ++ e.1)), e.2)

mutual

/-- One JSON value at the head of the input (after whitespace), fuelled;
the fuel bounds recursion depth and `jsonLoads` supplies enough of it. -/
def parseValue : Nat → List Char → Option (Json × List Char)
  | 0, _ => none
  | fuel + 1, cs =>
    match skipWs cs with
    | '{' :: rest =>
      (match skipWs rest with
       | [] => (parseMembers fuel []).map (fun p => (Json.obj p.1, p.2))
       | c :: r2 =>
         if c = '}' then some (.obj [], r2)
         else (parseMembers fuel (c :: r2)).map (fun p => (Json.obj p.1, p.2)))
    | '[' :: rest =>
      (match skipWs rest with
       | [] => (parseElements fuel []).map (fun p => (Json.arr p.1, p.2))
       | c :: r2 =>
         if c = ']' then some (.arr [], r2)
         else (parseElements fuel (c :: r2)).map (fun p => (Json.arr p.1, p.2)))
    | '"' :: rest => (parseStringBody rest).map (fun p => (Json.str (String.mk p.1), p.2))
    | 't' :: 'r' :: 'u' :: 'e' :: rest => some (.bool true, rest)
    | 'f' :: 'a' :: 'l' :: 's' :: 'e' :: rest => some (.bool false, rest)
    | 'n' :: 'u' :: 'l' :: 'l' :: rest => some (.null, rest)
    | 'N' :: 'a' :: 'N' :: rest => some (.numF "NaN", rest)
    | 'I' :: 'n' :: 'f' :: 'i' :: 'n' :: 'i' :: 't' :: 'y' :: rest =>
      some (.numF "Infinity", rest)
    | cs2 => parseNumber cs2

/-- Members `string : value` of an object, up to and including the
closing `}`. -/
def parseMembers : Nat → List Char → Option (List (String × Json) × List Char)
  | 0, _ => none
  | fuel + 1, cs =>
    match skipWs cs with
    | '"' :: rest =>
      match parseStringBody rest with
      | none => none
      | some (key, r1) =>
        match skipWs r1 with
        | ':' :: r2 =>
          match parseValue fuel r2 with
          | none => none
          | some (v, r3) =>
            match skipWs r3 with
            | ',' :: r4 =>
              (parseMembers fuel r4).map
                (fun p => ((String.mk key, v) :: p.1, p.2))
            | '}' :: r4 => some ([(String.mk key, v)], r4)
            | _ => none
        | _ => none
    | _ => none

/-- Elements of an array, up to and including the closing `]`. -/
def parseElements : Nat → List Char → Option (List Json × List Char)
  | 0, _ => none
  | fuel + 1, cs =>
    match parseValue fuel cs with
    | none => none
    | some (v, r1) =>
      match skipWs r1 with
      | ',' :: r2 => (parseElements fuel r2).map (fun p => (v :: p.1, p.2))
      | ']' :: r2 => some ([v], r2)
      | _ => none

end

/-- Model of `json.loads` on a character list: one value, then only trailing
whitespace. -/
def jsonLoads (cs : List Char) : Option Json :=
  match parseValue (cs.length + 1) cs with
  | some (v, rest) => if skipWs rest = [] then some v else none
  | none => none

/-- Model of `json.loads` on a string. -/
def jsonLoadsStr (s : String) : Option Json :=
  jsonLoads s.data

/-- Index of the first occurrence of `c`, as Python `str.find` (which
returns `-1` for `none`; `extractJson` applies that convention). -/
def find? (c : Char) : List Char → Option Nat
  | [] => none
  | x :: xs => if x = c then some 0 else (find? c xs).map (· + 1)

/-- Index of the last occurrence of `c`, as Python `str.rfind`. -/
def rfind? (c : Char) (cs : List Char) : Option Nat :=
  (find? c cs.reverse).map (fun i => cs.length - 1 - i)

/-- Python slice `cs[start:stop]`: negative bounds count from the end,
then both are clamped to `[0, len]`. -/
def pySlice (cs : List Char) (start stop : Int) : List Char :=
  let n : Int := cs.length
  let s := if start < 0 then max (n + start) 0 else min start n
  let e := if stop < 0 then max (n + stop) 0 else min stop n
  if s < e then (cs.drop s.toNat).take (e - s).toNat else []

/-- The extraction step of `analyze_transcript`:
`content[content.find('{') : content.rfind('}') + 1]`, with Python
`find`/`rfind` yielding `-1` when the character is absent. -/
def extractJson (content : List Char) : List Char :=
  let start_idx : Int := match find? '{' content with
    | some i => (i : Int)
    | none => -1
  let end_idx : Int := (match rfind? '}' content with
    | some j => (j : Int)
    | none => -1) + 1
  pySlice content start_idx end_idx

/-- String form of `extractJson`. -/
def extractJsonStr (content : String) : String :=
  String.mk (extractJson content.data)

/-- The list `InterviewAnalyzer.evaluation_criteria`, set in `__init__`. -/
def evaluation_criteria : List String :=
  ["Problem structuring and framework development",
   "Quantitative analysis and comfort with numbers",
   "Business judgment and practical insights",
   "Communication clarity and logical flow",
   "Creativity in solution development"]

/-- The fixed system prompt of `analyze_transcript` (`sys_prompt` in
`app.py`; braces appear doubled in the source as well, since the Python
literal is not an f-string). -/
def sys_prompt : String :=
  "You are a highly experienced interview evaluator who has assessed over 1,000 business case interviews across consulting, tech, and private equity. You have deep expertise in identifying candidate behaviors and competencies that correlate with success at top firms (e.g., MBB, FAANG). Your task is to provide an in-depth, constructive, and structured evaluation of the candidate’s performance.\n" ++
  "\n" ++
  "    Analyze the following interview transcript and evaluate the candidate across the following five parameters:\n" ++
  "\n" ++
  "        1. Problem structuring and framework development  \n" ++
  "        2. Quantitative analysis and comfort with numbers  \n" ++
  "        3. Business judgment and practical insights  \n" ++
  "        4. Communication clarity and logical flow  \n" ++
  "        5. Creativity in solution development\n" ++
  "\n" ++
  "    For each parameter, provide:\n" ++
  "    - A score from 1 to 10, where:  \n" ++
  "        - 10 = Exceptional (top 1% of candidates)  \n" ++
  "        - 7 = Strong but with room for improvement  \n" ++
  "        - 4 = Below bar  \n" ++
  "        - 1 = Severely lacking\n" ++
  "    - Detailed feedback (at least 3–5 sentences), grounded in specific moments from the transcript\n" ++
  "    - Strengths demonstrated\n" ++
  "    - Areas for improvement\n" ++
  "\n" ++
  "    Also include:\n" ++
  "    - An `\"overall_score\"` (average of the five individual scores)\n" ++
  "    - A `\"summary\"` that synthesizes the candidate’s performance across all parameters, clearly stating whether you would recommend moving forward (yes/no/maybe)\n" ++
  "    - A `\"red_flags\"` field (optional) to highlight any major concerns such as unethical thinking, communication breakdowns, or critical analytical errors\n" ++
  "\n" ++
  "    Please format your response as a JSON object with the following structure:\n" ++
  "        \x7b\x7b\n" ++
  "            \"overall_score\": <average score>,\n" ++
  "            \"detailed_feedback\": \x7b\x7b\n" ++
  "                \"problem_structuring\": \x7b\x7b\n" ++
  "                    \"score\": <score>,\n" ++
  "                    \"feedback\": \"<detailed feedback>\",\n" ++
  "                    \"strengths\": \"<strengths>\",\n" ++
  "                    \"improvements\": \"<areas for improvement>\"\n" ++
  "                \x7d\x7d,\n" ++
  "                \"quantitative_analysis\": \x7b\x7b\n" ++
  "                    \"score\": <score>,\n" ++
  "                    \"feedback\": \"<detailed feedback>\",\n" ++
  "                    \"strengths\": \"<strengths>\",\n" ++
  "                    \"improvements\": \"<areas for improvement>\"\n" ++
  "                \x7d\x7d,\n" ++
  "                \"business_judgment\": \x7b\x7b\n" ++
  "                    \"score\": <score>,\n" ++
  "                    \"feedback\": \"<detailed feedback>\",\n" ++
  "                    \"strengths\": \"<strengths>\",\n" ++
  "                    \"improvements\": \"<areas for improvement>\"\n" ++
  "                \x7d\x7d,\n" ++
  "                \"communication_clarity\": \x7b\x7b\n" ++
  "                    \"score\": <score>,\n" ++
  "                    \"feedback\": \"<detailed feedback>\",\n" ++
  "                    \"strengths\": \"<strengths>\",\n" ++
  "                    \"improvements\": \"<areas for improvement>\"\n" ++
  "                \x7d\x7d,\n" ++
  "                \"creativity\": \x7b\x7b\n" ++
  "                    \"score\": <score>,\n" ++
  "                    \"feedback\": \"<detailed feedback>\",\n" ++
  "                    \"strengths\": \"<strengths>\",\n" ++
  "                    \"improvements\": \"<areas for improvement>\"\n" ++
  "                \x7d\x7d\n" ++
  "            \x7d\x7d,\n" ++
  "            \"summary\": \"<overall summary of the interview performance>\"\n" ++
  "        \x7d\x7d"

/-- The user-role message content: the f-string
`f"Interview Transcript:\n        {transcript}"`. -/
def user_prompt (transcript : String) : String :=
  "Interview Transcript:\n        " ++ transcript

/-- One chat message of the completion request. -/
structure ChatMessage where
  role : String
  content : String
deriving DecidableEq, Repr

/-- The messages array of the completion request built by
`analyze_transcript`. -/
def completionMessages (transcript : String) : List ChatMessage :=
  [⟨"system", sys_prompt⟩, ⟨"user", user_prompt transcript⟩]

/-- Outcome of the remote completion invocation: the reply text
`response.choices[0].message.content`, or the message of the exception
it raised (network, auth, quota). -/
inductive RemoteOutcome where
  | success (content : String)
  | failure (message : String)

/-- Model of `InterviewAnalyzer.analyze_transcript`, given the remote outcome:
decode the first-`{`-to-last-`}` slice of the reply; on a decode
failure return the parse-error payload with the raw reply; on a remote
failure return the API-error payload. -/
def analyze_transcript (transcript : String) (outcome : RemoteOutcome) : Json :=
  match outcome with
  | .failure msg => .obj [("error", .str ("OpenAI API error: " ++ msg))]
  | .success content =>
    match jsonLoadsStr (extractJsonStr content) with
    | some analysis_result => analysis_result
    | none => .obj [("error", .str "Failed to parse AI response"),
                    ("raw_response", .str content)]

/-- Model of `InterviewAnalyzer.get_transcript_from_vapi`, given the outcome of
`vapi_client.calls.get(...).artifact.transcript`: passes a transcript
through and re-raises any lookup error as a generic `Exception` whose
message wraps the original one. -/
def get_transcript_from_vapi (call_id : String)
    (lookup : Except String String) : Except String String :=
  match lookup with
  | .ok transcript => .ok transcript
  | .error e => .error ("Failed to fetch transcript from Vapi: " ++ e)

/-- A Flask response: status code and JSON body (`jsonify` returns
status 200 unless one is given). -/
structure HttpResponse where
  status : Nat
  body : Json

/-- The `/analyze-call/<call_id>` route, given the vapi lookup outcome
and the remote completion outcome. -/
def analyze_by_call_id (call_id : String) (lookup : Except String String)
    (remote : RemoteOutcome) : HttpResponse :=
  match get_transcript_from_vapi call_id lookup with
  | .ok transcript =>
    ⟨200, .obj [("success", .bool true),
                ("call_id", .str call_id),
                ("analysis", analyze_transcript transcript remote),
                ("transcript_length", .num transcript.length)]⟩
  | .error e =>
    ⟨500, .obj [("error", .str ("Error analyzing call " ++ call_id ++ ": " ++ e))]⟩

/-- The `/get-transcript/<call_id>` route, given the vapi lookup
outcome. -/
def get_transcript_only (call_id : String)
    (lookup : Except String String) : HttpResponse :=
  match get_transcript_from_vapi call_id lookup with
  | .ok transcript =>
    ⟨200, .obj [("success", .bool true),
                ("call_id", .str call_id),
                ("transcript", .str transcript),
                ("transcript_length", .num transcript.length)]⟩
  | .error e =>
    ⟨500, .obj [("error", .str ("Error fetching transcript for call " ++ call_id ++ ": " ++ e))]⟩

/-- A call record listed by the call-records service, with the fields
`get_latest_completed_call` reads: `status = none` models a call object
without a `status` attribute (the `hasattr` guard), and `created_at` is
the creation timestamp, abstracted to a natural number since only its
order is used. -/
structure VapiCall where
  id : String
  status : Option String
  created_at : Nat
deriving DecidableEq, Repr

/-- The list comprehension
`[call for call in calls if hasattr(call, 'status') and call.status == 'ended']`. -/
def completedCalls (calls : List VapiCall) : List VapiCall :=
  calls.filter (fun c => c.status == some "ended")

/-- Python `max(best :: rest, key)`: keeps the first element whose key
is maximal (later elements replace only on a strictly greater key). -/
def pyMaxBy (key : VapiCall → Nat) : VapiCall → List VapiCall → VapiCall
  | best, [] => best
  | best, c :: rest => pyMaxBy key (if key best < key c then c else best) rest

/-- Model of `get_latest_completed_call` of `streamlit_app.py`, given the listed
calls: `None` when no completed call exists, else the id of
`max(completed_calls, key=lambda x: x.created_at)`. -/
def get_latest_completed_call (calls : List VapiCall) : Option String :=
  match completedCalls calls with
  | [] => none
  | c :: rest => some (pyMaxBy (fun x => x.created_at) c rest).id

/-! Supporting lemmas -/

lemma data_append (a b : String) : (a ++ b).data = a.data ++ b.data := by
  cases a; cases b; rfl

lemma jsonLoads_nil : jsonLoads [] = none := rfl

lemma jsonLoads_closebrace : jsonLoads ['}'] = none := rfl

lemma skipWs_open_brace (tail : List Char) : skipWs ('{' :: tail) = '{' :: tail := rfl

lemma find?_eq_none {c : Char} {cs : List Char} (h : c ∉ cs) : find? c cs = none := by
  induction cs with
  | nil => rfl
  | cons x xs ih =>
    simp only [List.mem_cons, not_or] at h
    have hxc : ¬ x = c := fun hx => h.1 hx.symm
    simp only [find?, if_neg hxc, ih h.2, Option.map_none']

lemma find?_some {c : Char} {cs : List Char} {i : Nat} (h : find? c cs = some i) :
    ∃ pre suf, cs = pre ++ c :: suf ∧ pre.length = i ∧ c ∉ pre := by
  induction cs generalizing i with
  | nil => simp [find?] at h
  | cons x xs ih =>
    by_cases hx : x = c
    · have h0 : find? c (x :: xs) = some 0 := by simp [find?, hx]
      rw [h0] at h
      obtain rfl : 0 = i := Option.some.inj h
      exact ⟨[], xs, by simp [hx], rfl, by simp⟩
    · simp only [find?, if_neg hx, Option.map_eq_some'] at h
      obtain ⟨j, hj, hji⟩ := h
      obtain ⟨pre, suf, hcs, hlen, hmem⟩ := ih hj
      exact ⟨x :: pre, suf, by simp [hcs], by simp [hlen, hji], by
        simp only [List.mem_cons, not_or]
        exact ⟨fun hc => hx hc.symm, hmem⟩⟩

lemma rfind?_some {c : Char} {cs : List Char} {j : Nat} (h : rfind? c cs = some j) :
    ∃ pre suf, cs = pre ++ c :: suf ∧ pre.length = j ∧ c ∉ suf := by
  simp only [rfind?, Option.map_eq_some'] at h
  obtain ⟨i, hi, hij⟩ := h
  obtain ⟨pre', suf', hrev, hlen, hmem⟩ := find?_some hi
  refine ⟨suf'.reverse, pre'.reverse, ?_, ?_, by simpa using hmem⟩
  · have := congrArg List.reverse hrev
    simpa [List.reverse_append, List.append_assoc] using this
  · have hn := congrArg List.length hrev
    simp only [List.length_reverse, List.length_append, List.length_cons] at hn
    simp only [List.length_reverse]
    omega

lemma parseValue_succ_open (f : Nat) (tail : List Char) :
    parseValue (f + 1) ('{' :: tail) =
      (match skipWs tail with
       | [] => (parseMembers f []).map (fun p => (Json.obj p.1, p.2))
       | c :: r2 =>
         if c = '}' then some (.obj [], r2)
         else (parseMembers f (c :: r2)).map (fun p => (Json.obj p.1, p.2))) := rfl

lemma parseValue_obj {f : Nat} {tail : List Char} {v : Json} {rest : List Char}
    (h : parseValue f ('{' :: tail) = some (v, rest)) : v.isObj = true := by
  cases f with
  | zero => simp [parseValue] at h
  | succ f =>
    rw [parseValue_succ_open] at h
    cases hsw : skipWs tail with
    | nil =>
      rw [hsw] at h
      have h' : (parseMembers f []).map (fun p => (Json.obj p.1, p.2)) = some (v, rest) := h
      rw [Option.map_eq_some'] at h'
      obtain ⟨⟨kvs, r⟩, -, heq⟩ := h'
      cases heq
      rfl
    | cons c r2 =>
      rw [hsw] at h
      have h' : (if c = '}' then some (Json.obj [], r2)
          else (parseMembers f (c :: r2)).map (fun p => (Json.obj p.1, p.2))) =
          some (v, rest) := h
      split at h'
      · cases h'; rfl
      · rw [Option.map_eq_some'] at h'
        obtain ⟨⟨kvs, r⟩, -, heq⟩ := h'
        cases heq
        rfl

lemma jsonLoads_obj {tail : List Char} {v : Json}
    (h : jsonLoads ('{' :: tail) = some v) : v.isObj = true := by
  unfold jsonLoads at h
  cases hp : parseValue (('{' :: tail).length + 1) ('{' :: tail) with
  | none => rw [hp] at h; cases h
  | some p =>
    obtain ⟨w, rest⟩ := p
    rw [hp] at h
    have h' : (if skipWs rest = [] then some w else none) = some v := h
    split at h'
    · cases h'
      exact parseValue_obj hp
    · cases h'

lemma pySlice_ofNat (cs : List Char) (a b : Nat) :
    pySlice cs (a : Int) (b : Int) =
      (cs.drop (min a cs.length)).take (min b cs.length - min a cs.length) := by
  have ha : ¬ ((a : Int) < 0) := by omega
  have hb : ¬ ((b : Int) < 0) := by omega
  simp only [pySlice, if_neg ha, if_neg hb]
  split_ifs with h
  · have e1 : (min (a : Int) (cs.length : Int)).toNat = min a cs.length := by omega
    have e2 : ((min (b : Int) (cs.length : Int)) - min (a : Int) (cs.length : Int)).toNat =
        min b cs.length - min a cs.length := by omega
    rw [e1, e2]
  · have e3 : min b cs.length - min a cs.length = 0 := by omega
    rw [e3, List.take_zero]

lemma pySlice_neg_one (cs : List Char) (b : Nat) :
    pySlice cs (-1) (b : Int) =
      (cs.drop (cs.length - 1)).take (min b cs.length - (cs.length - 1)) := by
  have ha : ((-1 : Int) < 0) := by omega
  have hb : ¬ ((b : Int) < 0) := by omega
  simp only [pySlice, if_pos ha, if_neg hb]
  split_ifs with h
  · have e1 : (max ((cs.length : Int) + -1) 0).toNat = cs.length - 1 := by omega
    have e2 : ((min (b : Int) (cs.length : Int)) - max ((cs.length : Int) + -1) 0).toNat =
        min b cs.length - (cs.length - 1) := by omega
    rw [e1, e2]
  · have e3 : min b cs.length - (cs.length - 1) = 0 := by omega
    rw [e3, List.take_zero]

lemma extractJson_eq (content : List Char) :
    extractJson content =
      pySlice content
        (match find? '{' content with | some i => (i : Int) | none => -1)
        ((match rfind? '}' content with | some j => (j : Int) | none => -1) + 1) := rfl

lemma extractJson_no_open {content : List Char} (h : find? '{' content = none) :
    extractJson content = [] ∨ extractJson content = ['}'] := by
  cases hr : rfind? '}' content with
  | none =>
    left
    simp only [extractJson_eq, h, hr]
    rw [show ((-1 : Int) + 1) = ((0 : Nat) : Int) by norm_num, pySlice_neg_one]
    have e : min 0 content.length - (content.length - 1) = 0 := by omega
    rw [e, List.take_zero]
  | some j =>
    obtain ⟨pre, suf, hcs, hlen, hmem⟩ := rfind?_some hr
    simp only [extractJson_eq, h, hr]
    rw [show ((j : Int) + 1) = ((j + 1 : Nat) : Int) by push_cast; ring, pySlice_neg_one]
    subst hcs
    have hn := List.length_append pre ('}' :: suf)
    simp only [List.length_cons] at hn
    cases suf with
    | nil =>
      right
      simp only [List.length_nil] at hn
      have e2 : min (j + 1) (pre ++ '}' :: [] : List Char).length -
          ((pre ++ '}' :: [] : List Char).length - 1) = 1 := by omega
      have e1 : (pre ++ '}' :: [] : List Char).length - 1 = pre.length := by omega
      rw [e2, e1, List.drop_left]
      rfl
    | cons x xs =>
      left
      have e2 : min (j + 1) (pre ++ '}' :: x :: xs : List Char).length -
          ((pre ++ '}' :: x :: xs : List Char).length - 1) = 0 := by
        simp only [List.length_cons] at hn ⊢
        omega
      rw [e2, List.take_zero]

lemma extract_no_open_loads_none {content : List Char} (h : find? '{' content = none) :
    jsonLoads (extractJson content) = none := by
  rcases extractJson_no_open h with he | he <;> rw [he]
  · exact jsonLoads_nil
  · exact jsonLoads_closebrace

lemma extractJson_open {content : List Char} {i : Nat} (h : find? '{' content = some i) :
    extractJson content = [] ∨ ∃ tail, extractJson content = '{' :: tail := by
  obtain ⟨pre, suf, hcs, hlen, -⟩ := find?_some h
  subst hcs
  have hn := List.length_append pre ('{' :: suf)
  simp only [List.length_cons] at hn
  cases hr : rfind? '}' (pre ++ '{' :: suf) with
  | none =>
    left
    simp only [extractJson_eq, h, hr]
    rw [show ((-1 : Int) + 1) = ((0 : Nat) : Int) by norm_num, pySlice_ofNat]
    have e : min 0 (pre ++ '{' :: suf : List Char).length -
        min i (pre ++ '{' :: suf : List Char).length = 0 := by omega
    rw [e, List.take_zero]
  | some j =>
    simp only [extractJson_eq, h, hr]
    rw [show ((j : Int) + 1) = ((j + 1 : Nat) : Int) by push_cast; ring, pySlice_ofNat]
    have hmin : min i (pre ++ '{' :: suf : List Char).length = i := by omega
    rw [hmin, ← hlen, List.drop_left]
    cases hk : min (j + 1) (pre ++ '{' :: suf : List Char).length - pre.length with
    | zero => left; rw [List.take_zero]
    | succ m => right; exact ⟨suf.take m, List.take_succ_cons⟩

lemma extract_decode_obj {content : List Char} {v : Json}
    (h : jsonLoads (extractJson content) = some v) : v.isObj = true := by
  cases hf : find? '{' content with
  | none => rw [extract_no_open_loads_none hf] at h; cases h
  | some i =>
    rcases extractJson_open hf with he | ⟨tail, he⟩
    · rw [he, jsonLoads_nil] at h; cases h
    · rw [he] at h; exact jsonLoads_obj h

lemma analyze_transcript_isObj (transcript : String) (outcome : RemoteOutcome) :
    (analyze_transcript transcript outcome).isObj = true := by
  cases outcome with
  | failure msg => rfl
  | success content =>
    cases h : jsonLoadsStr (extractJsonStr content) with
    | none => simp only [analyze_transcript, h]; rfl
    | some v =>
      simp only [analyze_transcript, h]
      exact extract_decode_obj (show jsonLoads (extractJson content.data) = some v from h)

lemma pyMaxBy_mem (key : VapiCall → Nat) (b : VapiCall) (l : List VapiCall) :
    pyMaxBy key b l ∈ b :: l := by
  induction l generalizing b with
  | nil => simp [pyMaxBy]
  | cons c rest ih =>
    rw [pyMaxBy]
    have h := ih (if key b < key c then c else b)
    simp only [List.mem_cons] at h ⊢
    rcases h with h | h
    · split_ifs at h ⊢ with hc
      · right; left; exact h
      · left; exact h
    · right; right; exact h

lemma pyMaxBy_le (key : VapiCall → Nat) (b : VapiCall) (l : List VapiCall) :
    ∀ x ∈ b :: l, key x ≤ key (pyMaxBy key b l) := by
  induction l generalizing b with
  | nil =>
    intro x hx
    simp only [List.mem_cons, List.not_mem_nil, or_false] at hx
    subst hx
    exact le_refl _
  | cons c rest ih =>
    intro x hx
    rw [pyMaxBy]
    have hhead := ih (if key b < key c then c else b)
      (if key b < key c then c else b) (List.mem_cons_self _ _)
    simp only [List.mem_cons] at hx
    rcases hx with rfl | rfl | hx
    · refine le_trans ?_ hhead
      split_ifs with hc <;> omega
    · refine le_trans ?_ hhead
      split_ifs with hc <;> omega
    · exact ih _ x (List.mem_cons_of_mem _ hx)

/-! Claim theorems, with their witnesses and counterexamples -/

/-- C3: on the reply
`Here is the result: {"overall_score": 8, "detailed_feedback": {}, "summary": "ok"} Thanks.`,
the first-`{`-to-last-`}` extraction step followed by JSON decoding
yields exactly the mapping
`{"overall_score": 8, "detailed_feedback": {}, "summary": "ok"}`. -/
theorem C3_concrete_extraction :
    jsonLoadsStr (extractJsonStr
        "Here is the result: \x7b\"overall_score\": 8, \"detailed_feedback\": \x7b\x7d, \"summary\": \"ok\"\x7d Thanks.") =
      some (.obj [("overall_score", .num 8),
                  ("detailed_feedback", .obj []),
                  ("summary", .str "ok")]) := rfl

/-- C6: when the remote completion invocation itself fails with a given
exception message, the analyzer returns the error payload whose `error`
field wraps that message (so the field contains the message as an infix)
and does not re-raise. -/
theorem C6_remote_failure (transcript msg : String) :
    analyze_transcript transcript (.failure msg) =
      .obj [("error", .str ("OpenAI API error: " ++ msg))] ∧
    msg.data <:+: ("OpenAI API error: " ++ msg).data := by
  refine ⟨rfl, "OpenAI API error: ".data, [], ?_⟩
  simp [data_append]

/-- C5: when the call-records lookup raises, the fetcher re-raises one
generic failure wrapping the original message (never a silent success);
the `/get-transcript` route then surfaces a 500 error body whose message
contains both the call identifier and the upstream message as infixes. -/
theorem C5_fetch_failure_surfaced (call_id e : String) :
    get_transcript_from_vapi call_id (.error e) =
      .error ("Failed to fetch transcript from Vapi: " ++ e) ∧
    (get_transcript_from_vapi call_id (.error e)).isOk = false ∧
    get_transcript_only call_id (.error e) =
      ⟨500, .obj [("error", .str ("Error fetching transcript for call " ++ call_id ++ ": " ++
        ("Failed to fetch transcript from Vapi: " ++ e)))]⟩ ∧
    call_id.data <:+: ("Error fetching transcript for call " ++ call_id ++ ": " ++
      ("Failed to fetch transcript from Vapi: " ++ e)).data ∧
    e.data <:+: ("Error fetching transcript for call " ++ call_id ++ ": " ++
      ("Failed to fetch transcript from Vapi: " ++ e)).data := by
  refine ⟨rfl, rfl, rfl, ?_, ?_⟩
  · refine ⟨"Error fetching transcript for call ".data,
      (": " ++ ("Failed to fetch transcript from Vapi: " ++ e)).data, ?_⟩
    simp [data_append, List.append_assoc]
  · refine ⟨("Error fetching transcript for call " ++ call_id ++ ": " ++
      "Failed to fetch transcript from Vapi: ").data, [], ?_⟩
    simp [data_append, List.append_assoc]

/-- C4: on the `/analyze-call/<call_id>` route, a failing transcript
fetch yields an `{error}` body with HTTP status 500, while a successful
fetch yields status 200 with the `{success, call_id, analysis,
transcript_length}` body for every remote outcome — in particular the
status stays 200 when the embedded analysis is an error payload. -/
theorem C4_route_statuses (call_id e transcript : String) (remote : RemoteOutcome) :
    analyze_by_call_id call_id (.error e) remote =
      ⟨500, .obj [("error", .str ("Error analyzing call " ++ call_id ++ ": " ++
        ("Failed to fetch transcript from Vapi: " ++ e)))]⟩ ∧
    analyze_by_call_id call_id (.ok transcript) remote =
      ⟨200, .obj [("success", .bool true),
                  ("call_id", .str call_id),
                  ("analysis", analyze_transcript transcript remote),
                  ("transcript_length", .num transcript.length)]⟩ :=
  ⟨rfl, rfl⟩

/-- C7: when fetch (and analysis) succeed, the `transcript_length` field
of the `/analyze-call/<call_id>` response equals the character count of
the fetched transcript. -/
theorem C7_transcript_length (call_id transcript : String) (remote : RemoteOutcome) :
    (analyze_by_call_id call_id (.ok transcript) remote).body.getKey "transcript_length" =
      some (.num transcript.length) := rfl

/-- C8 counterexample: the user-role message content is not the
transcript itself — for the transcript `T` the content is
`Interview Transcript:\n        T`. -/
theorem C8_counterexample : ¬ (user_prompt "T" = "T") := by decide

/-- C8 (amended): the completion request sends the fixed rubric prompt
as the system-role message and, as the user-role content, the fixed
header `Interview Transcript:` plus newline and indentation followed by
the transcript verbatim (the transcript is an unbroken suffix — no
truncation, chunking or alteration of its text). -/
theorem C8_amended_messages (transcript : String) :
    completionMessages transcript =
      [⟨"system", sys_prompt⟩,
       ⟨"user", "Interview Transcript:\n        " ++ transcript⟩] ∧
    transcript.data <:+ (user_prompt transcript).data := by
  refine ⟨rfl, "Interview Transcript:\n        ".data, ?_⟩
  simp [user_prompt, data_append]

/-- C2: whenever decoding the first-`{`-to-last-`}` slice of the remote
reply fails, the analyzer returns (does not raise) the error payload
whose `raw_response` is the original reply verbatim; and for any reply
with no `{` character at all, that decoding does fail. -/
theorem C2_decode_failure (transcript content : String) :
    (jsonLoadsStr (extractJsonStr content) = none →
      analyze_transcript transcript (.success content) =
        .obj [("error", .str "Failed to parse AI response"),
              ("raw_response", .str content)]) ∧
    ('{' ∉ content.data → jsonLoadsStr (extractJsonStr content) = none) := by
  constructor
  · intro h
    simp only [analyze_transcript, h]
  · intro h
    exact extract_no_open_loads_none (find?_eq_none h)

/-- Witness for C2 at the concrete brace-free reply `plain reply`. -/
theorem C2_decode_failure_witness :
    analyze_transcript "t" (.success "plain reply") =
      .obj [("error", .str "Failed to parse AI response"),
            ("raw_response", .str "plain reply")] :=
  (C2_decode_failure "t" "plain reply").1
    ((C2_decode_failure "t" "plain reply").2 (by decide))

/-- C10: for every transcript and remote outcome the analyzer's return
value is a JSON object (a Python dict) — never a list, number, string or
`None`. -/
theorem C10_result_always_dict (transcript : String) (outcome : RemoteOutcome) :
    (analyze_transcript transcript outcome).isObj = true :=
  analyze_transcript_isObj transcript outcome

/-- C1 counterexample: on the decodable reply `{"x": 1}` the analyzer
returns the mapping `{"x": 1}`, which contains none of
`overall_score`, `detailed_feedback`, `summary`, nor an `error` key —
so the claimed disjunction fails as stated. -/
theorem C1_counterexample :
    ¬ ((((analyze_transcript "t" (.success "\x7b\"x\": 1\x7d")).hasKey "overall_score" = true ∧
         (analyze_transcript "t" (.success "\x7b\"x\": 1\x7d")).hasKey "detailed_feedback" = true ∧
         (analyze_transcript "t" (.success "\x7b\"x\": 1\x7d")).hasKey "summary" = true) ∨
        (analyze_transcript "t" (.success "\x7b\"x\": 1\x7d")).hasKey "error" = true)) := by
  decide

/-- C1 (amended): for every transcript and remote outcome the analyzer
returns a mapping and never raises: either an error payload containing
an `error` key, or the JSON object decoded from the reply slice
(which carries `overall_score`, `detailed_feedback` and `summary` only
when the remote reply is well-formed — the code performs no validation
of the decoded keys). -/
theorem C1_amended_result_shape (transcript : String) (outcome : RemoteOutcome) :
    (analyze_transcript transcript outcome).isObj = true ∧
    ((analyze_transcript transcript outcome).hasKey "error" = true ∨
      ∃ content, outcome = .success content ∧
        jsonLoadsStr (extractJsonStr content) =
          some (analyze_transcript transcript outcome)) := by
  cases outcome with
  | failure msg => exact ⟨analyze_transcript_isObj _ _, Or.inl rfl⟩
  | success content =>
    cases h : jsonLoadsStr (extractJsonStr content) with
    | none =>
      refine ⟨analyze_transcript_isObj _ _, Or.inl ?_⟩
      simp only [analyze_transcript, h]
      rfl
    | some v =>
      refine ⟨analyze_transcript_isObj _ _, Or.inr ⟨content, rfl, ?_⟩⟩
      simp only [analyze_transcript, h]

/-- C9: the dashboard's latest-completed-call selection returns `None`
when the listed calls contain no `ended` call, and otherwise the id of
an `ended` call whose creation timestamp is maximal among the `ended`
calls; membership in the completed list is exactly being a listed call
with status `ended`. -/
theorem C9_latest_completed (calls : List VapiCall) :
    (completedCalls calls = [] → get_latest_completed_call calls = none) ∧
    (completedCalls calls ≠ [] →
      ∃ c ∈ completedCalls calls,
        get_latest_completed_call calls = some c.id ∧
        c.status = some "ended" ∧
        ∀ c' ∈ completedCalls calls, c'.created_at ≤ c.created_at) ∧
    (∀ c, c ∈ completedCalls calls ↔ (c ∈ calls ∧ c.status = some "ended")) := by
  refine ⟨?_, ?_, ?_⟩
  · intro h
    simp only [get_latest_completed_call, h]
  · intro h
    cases hc : completedCalls calls with
    | nil => exact absurd hc h
    | cons c0 rest =>
      refine ⟨pyMaxBy (fun x => x.created_at) c0 rest, ?_, ?_, ?_, ?_⟩
      · exact pyMaxBy_mem _ c0 rest
      · simp only [get_latest_completed_call, hc]
      · have hm : pyMaxBy (fun x => x.created_at) c0 rest ∈ completedCalls calls := by
          rw [hc]; exact pyMaxBy_mem _ c0 rest
        rw [completedCalls, List.mem_filter] at hm
        simpa using hm.2
      · intro c' hc'
        exact pyMaxBy_le _ c0 rest c' hc'
  · intro c
    simp [completedCalls, List.mem_filter]

/-- Witness for C9: a list with no ended call yields `None`; on
`[a(ended, 5), b(no status, 9), c(ended, 7)]` the selection returns an
ended call with maximal timestamp among the ended ones. -/
theorem C9_latest_completed_witness :
    get_latest_completed_call [⟨"a", some "in-progress", 3⟩] = none ∧
    ∃ c ∈ completedCalls
        [⟨"a", some "ended", 5⟩, ⟨"b", none, 9⟩, ⟨"c", some "ended", 7⟩],
      get_latest_completed_call
        [⟨"a", some "ended", 5⟩, ⟨"b", none, 9⟩, ⟨"c", some "ended", 7⟩] = some c.id ∧
      c.status = some "ended" ∧
      ∀ c' ∈ completedCalls
          [⟨"a", some "ended", 5⟩, ⟨"b", none, 9⟩, ⟨"c", some "ended", 7⟩],
        c'.created_at ≤ c.created_at :=
  ⟨(C9_latest_completed [⟨"a", some "in-progress", 3⟩]).1 (by decide),
   (C9_latest_completed
      [⟨"a", some "ended", 5⟩, ⟨"b", none, 9⟩, ⟨"c", some "ended", 7⟩]).2.1 (by decide)⟩

end IOH
